import Mathlib

/-!
Verification of the MetalSlugFont glyph-compositing core (`src/main.py` and
the UI entry point `src/src/ui.py`).

The Python code is shallowly embedded:

* A Python character is a record `Ch` carrying its code point, its one-character
  string form, and the Unicode classification bits that the code branches on
  (`isalpha`, `islower`, `isdigit`, whitespace-ness for `split`/`strip`,
  `isalnum`).  Real Unicode characters satisfy the well-formedness predicate
  `Ch.WF` relating those bits.
* A PIL image is `Img`: a width, a height and a pixel function returning RGBA
  quadruples.  `Image.paste(img, (x, 0), img)` with the image itself as mask is
  embedded by `pasteAt`, using PIL's exact integer blend
  (`MULDIV255` from the PIL C sources).
* The filesystem is a read-only association list `FS` from path strings to file
  contents (a decodable image, or an existing but undecodable file).
* Filesystem effects are recorded in an event trace `Ev`
  (`os.path.isfile` probe, `Image.open` read, `img.save` write).
* Exceptions are `Except` values; the messages built by the Python handlers are
  abstracted to constructors carrying the data the message interpolates
  (`RenderError.glyphNotFound c` stands for the `FileNotFoundError` whose
  message names the character `c`).
-/

namespace MSF

/-- RGBA pixel: four channel values, each in `0..255`. -/
abbrev Pix := Nat × Nat × Nat × Nat

/-- A fully transparent pixel, the fill of every freshly allocated canvas. -/
def transPix : Pix := (0, 0, 0, 0)

/-- An in-memory image: width, height and a pixel function. -/
structure Img where
  width : Nat
  height : Nat
  px : Nat → Nat → Pix

/-- A Python character, with the Unicode classification bits the code uses. -/
structure Ch where
  /-- the code point (`ord`) -/
  code : Nat
  /-- the one-character string, used to build asset file names -/
  s : String
  /-- `str.isalpha` -/
  isAlpha : Bool
  /-- `str.islower` -/
  isLower : Bool
  /-- `str.isdigit` -/
  isDigit : Bool
  /-- whitespace as used by `str.split()` / `str.strip()` -/
  isWhite : Bool
  /-- `str.isalnum` -/
  isAlnum : Bool
  /-- code point of `str.lower()` of this character -/
  lowerCode : Nat
deriving DecidableEq, Repr

/-- Well-formedness facts true of every real Unicode character. -/
def Ch.WF (c : Ch) : Prop :=
  (c.isAlpha = true → c.isDigit = false ∧ c.code ≠ 32 ∧ c.isWhite = false ∧ c.isAlnum = true) ∧
  (c.isDigit = true → c.code ≠ 32 ∧ c.isWhite = false ∧ c.isAlnum = true) ∧
  (c.code = 32 → c.isWhite = true ∧ c.isAlpha = false ∧ c.isDigit = false ∧ c.isAlnum = false) ∧
  (c.isWhite = true → c.isAlnum = false ∧ c.isAlpha = false ∧ c.isDigit = false)

instance (c : Ch) : Decidable c.WF := by
  unfold Ch.WF
  infer_instance

/-- Uppercase ASCII letter constructor (concrete test characters). -/
def mkUpper (code : Nat) (s : String) : Ch :=
  ⟨code, s, true, false, false, false, true, code + 32⟩

/-- Lowercase ASCII letter constructor. -/
def mkLower (code : Nat) (s : String) : Ch :=
  ⟨code, s, true, true, false, false, true, code⟩

/-- Decimal digit constructor. -/
def mkDigit (code : Nat) (s : String) : Ch :=
  ⟨code, s, false, false, true, false, true, code⟩

/-- Symbol (non-alphanumeric, non-space) constructor. -/
def mkSym (code : Nat) (s : String) : Ch :=
  ⟨code, s, false, false, false, false, false, code⟩

/-- Whitespace constructor. -/
def mkWhite (code : Nat) (s : String) : Ch :=
  ⟨code, s, false, false, false, true, false, code⟩

/-- The ASCII space character `' '`. -/
def spaceCh : Ch := mkWhite 32 " "

/-- Caseless alphabetic character (HIRAGANA LETTER A): `isalpha` true,
`islower` false, no case distinction. -/
def hiraganaA : Ch := ⟨12354, "あ", true, false, false, false, true, 12354⟩

/-- Contents of a file in the asset store: a decodable image, or a file that
exists but `Image.open` cannot identify (raises `UnidentifiedImageError`). -/
inductive FileContent where
  | image (g : Img)
  | invalid

/-- The read-only filesystem: association list from paths to contents. -/
abbrev FS := List (String × FileContent)

/-- Path lookup in the filesystem. -/
def fsLookup (fs : FS) (p : String) : Option FileContent :=
  match fs with
  | [] => none
  | (q, c) :: rest => if q = p then some c else fsLookup rest p

/-- `os.path.isfile`: the path is present in the store. -/
def fsIsFile (fs : FS) (p : String) : Bool :=
  (fsLookup fs p).isSome

/-- One filesystem event, in the order the Python code performs them. -/
inductive Ev where
  | isfile (p : String)
  | openFile (p : String)
  | save (p : String)
deriving DecidableEq, Repr

-- Constants from `src/main.py` lines 8-10.

/-- `SPACE_WIDTH = 30` -/
def SPACE_WIDTH : Nat := 30

/-- `MAX_FILENAME_LENGTH = 255` -/
def MAX_FILENAME_LENGTH : Nat := 255

/-- `DESKTOP_PATH = os.path.expanduser("~/Desktop")` (environment constant). -/
def DESKTOP_PATH : String := "~/Desktop"

/-- `get_font_paths` (`src/main.py` lines 25-31): pure path construction. -/
def get_font_paths (font : Nat) (color : String) : String × String × String :=
  let base := "Assets/FONTS/Font-" ++ toString font ++ "/Font-" ++ toString font ++ "-" ++ color
  (base ++ "/Letters", base ++ "/Numbers", base ++ "/Symbols")

/-- The `SPECIAL_CHARACTERS` dict (`src/main.py` lines 45-56), keyed by code
point of the character literal. -/
def SPECIAL_CHARACTERS : List (Nat × String) :=
  [(33, "Exclamation"), (63, "Question"), (39, "Apostrophe"), (42, "Asterisk"),
   (41, "Bracket-Left"), (125, "Bracket-Left-2"), (93, "Bracket-Left-3"),
   (40, "Bracket-Right"), (123, "Bracket-Right-2"), (91, "Bracket-Right-3"),
   (94, "Caret"), (58, "Colon"), (36, "Dollar"), (61, "Equals"), (62, "Greater-than"),
   (45, "Hyphen"), (8734, "Infinity"), (60, "Less-than"), (35, "Number"), (37, "Percent"),
   (46, "Period"), (43, "Plus"), (34, "Quotation"), (59, "Semicolon"), (47, "Slash"),
   (126, "Tilde"), (95, "Underscore"), (124, "Vertical-bar"), (44, "Comma"), (38, "Ampersand"),
   (9829, "Heart"), (169, "Copyright"), (9974, "Square"), (8544, "One"), (8545, "Two"),
   (8546, "Three"), (8547, "Four"), (8548, "Five"), (9664, "Left"), (9650, "Up"),
   (9654, "Right"), (9660, "Down"), (9733, "Star"), (8902, "Mini-Star"), (9758, "Hand"),
   (165, "Yen"), (9834, "Musical-Note"), (65079, "Up-Arrow")]

/-- Association lookup for the special-character table. -/
def specialLookup (code : Nat) : Option String :=
  match SPECIAL_CHARACTERS.find? (fun p => p.1 = code) with
  | some p => some p.2
  | none => none

/-- `SPECIAL_CHARACTERS.get(char, '')`. -/
def specialLabel (c : Ch) : String :=
  (specialLookup c.code).getD ""

/-- Path of an alphabetic character's glyph (`src/main.py` lines 37-39). -/
def letterPath (c : Ch) (fp : String × String × String) : String :=
  fp.1 ++ "/" ++ (if c.isLower then "Lower-Case" else "Upper-Case") ++ "/" ++ c.s ++ ".png"

/-- Path of a digit's glyph (`src/main.py` line 41). -/
def numberPath (c : Ch) (fp : String × String × String) : String :=
  fp.2.1 ++ "/" ++ c.s ++ ".png"

/-- Path of a symbol's glyph (`src/main.py` line 57). -/
def symbolPath (c : Ch) (fp : String × String × String) : String :=
  fp.2.2 ++ "/" ++ specialLabel c ++ ".png"

/-- The path `get_character_image_path` would probe for a non-space character,
mirroring the branch order of `src/main.py` lines 37-57. -/
def pathOf (c : Ch) (fp : String × String × String) : String :=
  if c.isAlpha then letterPath c fp
  else if c.isDigit then numberPath c fp
  else symbolPath c fp

/-- The `os.path.isfile` existence check of `src/main.py` lines 59-62: return
the path if the file exists, else raise `FileNotFoundError` naming `c`. -/
def checkFile (c : Ch) (fs : FS) (p : String) : Except Ch (Option String) × List Ev :=
  if fsIsFile fs p then (Except.ok (some p), [Ev.isfile p])
  else (Except.error c, [Ev.isfile p])

/-- `get_character_image_path` (`src/main.py` lines 34-62).  `Except.error c`
is the `FileNotFoundError` whose message names `c`; `Except.ok none` is the
space sentinel (`return None`). -/
def get_character_image_path (c : Ch) (fp : String × String × String) (fs : FS) :
    Except Ch (Option String) × List Ev :=
  if c.isAlpha then checkFile c fs (letterPath c fp)
  else if c.isDigit then checkFile c fs (numberPath c fp)
  else if c.code = 32 then (Except.ok none, [])
  else checkFile c fs (symbolPath c fp)

/-! ## The compositor (`generate_image_with_filename`, `src/main.py` lines 65-110) -/

/-- PIL's `MULDIV255(a, b)` from the C sources: approximate `a * b / 255`
with rounding, `(t + (t >> 8)) >> 8` for `t = a * b + 128`. -/
def mulDiv255 (a b : Nat) : Nat :=
  let t := a * b + 128
  (t + t / 256) / 256

/-- PIL's per-channel `BLEND(mask, in1, in2)`. -/
def blendChan (m a s : Nat) : Nat :=
  mulDiv255 a (255 - m) + mulDiv255 s m

/-- Blend source pixel `s` over canvas pixel `c` with the source's own alpha
channel as mask: `img.paste(char_img, (x, 0), char_img)` uses the RGBA mask's
alpha band for all four bands. -/
def blendPix (c s : Pix) : Pix :=
  let m := s.2.2.2
  (blendChan m c.1 s.1, blendChan m c.2.1 s.2.1,
   blendChan m c.2.2.1 s.2.2.1, blendChan m c.2.2.2 s.2.2.2)

/-- `img.paste(g, (ox, 0), g)`: blend `g` onto the canvas at horizontal
offset `ox`, masked by `g`'s alpha channel. -/
def pasteAt (canvas : Img) (g : Img) (ox : Nat) : Img :=
  { canvas with px := fun x y =>
      if ox ≤ x ∧ x < ox + g.width ∧ y < g.height then
        blendPix (canvas.px x y) (g.px (x - ox) y)
      else canvas.px x y }

/-- The paste loop of `src/main.py` lines 90-94: paste each (image, width)
pair at the running cursor, advancing the cursor by the width. -/
def pasteFrom (canvas : Img) (x0 : Nat) : List (Img × Nat) → Img
  | [] => canvas
  | (g, w) :: rest => pasteFrom (pasteAt canvas g x0) (x0 + w) rest

/-- The space placeholder `Image.new('RGBA', (SPACE_WIDTH, 1), (0, 0, 0, 0))`
(`src/main.py` line 74). -/
def spaceImg : Img :=
  ⟨SPACE_WIDTH, 1, fun _ _ => transPix⟩

/-- Dummy image used to totalize dictionary lookups that the Python code
performs only on keys known to be present. -/
def emptyImg : Img :=
  ⟨0, 0, fun _ _ => transPix⟩

/-- The structured counterpart of the error strings produced by the `except`
handlers of `src/main.py` lines 100-110. -/
inductive RenderError where
  | glyphNotFound (c : Ch)
  | unsupportedImageFormat
  | invalidValue
  | unexpected
deriving DecidableEq

/-- State of the character loop: `img_height` and the `char_images` dict. -/
structure LoopState where
  imgHeight : Option Nat
  dict : Ch → Option Img

/-- `char_images[char] = char_img; img_height = char_img.size[1] if img_height
is None else img_height` (`src/main.py` lines 81-82). -/
def updateState (st : LoopState) (c : Ch) (img : Img) : LoopState :=
  { imgHeight := match st.imgHeight with
      | none => some img.height
      | some h => some h,
    dict := fun c2 => if c2 = c then some img else st.dict c2 }

/-- One iteration of the `for char in text` loop (`src/main.py` lines 72-82). -/
def stepChar (fp : String × String × String) (fs : FS) (st : LoopState) (c : Ch) :
    Except RenderError LoopState × List Ev :=
  if c.code = 32 then
    (Except.ok (updateState st c spaceImg), [])
  else
    match get_character_image_path c fp fs with
    | (Except.error c2, tr) => (Except.error (RenderError.glyphNotFound c2), tr)
    | (Except.ok none, tr) =>
      -- `if char_img_path is None: raise FileNotFoundError(...)`, line 77-78
      (Except.error (RenderError.glyphNotFound c), tr)
    | (Except.ok (some p), tr) =>
      -- `Image.open(char_img_path).convert('RGBA')`, line 79
      match fsLookup fs p with
      | some (FileContent.image g) =>
        (Except.ok (updateState st c g), tr ++ [Ev.openFile p])
      | some FileContent.invalid =>
        (Except.error RenderError.unsupportedImageFormat, tr ++ [Ev.openFile p])
      | none =>
        -- unreachable on a static filesystem: `isfile` just succeeded
        (Except.error RenderError.unexpected, tr ++ [Ev.openFile p])

/-- The whole character loop, threading state and the event trace. -/
def runLoop (fp : String × String × String) (fs : FS) (st : LoopState) :
    List Ch → Except RenderError LoopState × List Ev
  | [] => (Except.ok st, [])
  | c :: cs =>
    match stepChar fp fs st c with
    | (Except.error e, tr) => (Except.error e, tr)
    | (Except.ok st2, tr) =>
      let r := runLoop fp fs st2 cs
      (r.1, tr ++ r.2)

/-- The image a successful load of character `c` produces: the space
placeholder for `' '`, otherwise the decoded file at the probed path. -/
def glyphOf (fs : FS) (fp : String × String × String) (c : Ch) : Option Img :=
  if c.code = 32 then some spaceImg
  else
    match fsLookup fs (pathOf c fp) with
    | some (FileContent.image g) => some g
    | _ => none

/-- The advance width of a character: `SPACE_WIDTH if char == ' ' else
char_images[char].size[0]` (`src/main.py` line 85). -/
def advance (fs : FS) (fp : String × String × String) (c : Ch) : Nat :=
  if c.code = 32 then SPACE_WIDTH else ((glyphOf fs fp c).getD emptyImg).width

/-- The try-block of `generate_image_with_filename` up to building the final
canvas (`src/main.py` lines 67-94): everything except the save. -/
def composeResult (text : List Ch) (fp : String × String × String) (fs : FS) :
    Except RenderError Img × List Ev :=
  match runLoop fp fs ⟨none, fun _ => none⟩ text with
  | (Except.error e, tr) => (Except.error e, tr)
  | (Except.ok st, tr) =>
    match st.imgHeight with
    | none =>
      -- empty text: `Image.new('RGBA', (0, None), ...)` raises TypeError,
      -- caught by the generic handler (lines 109-110)
      (Except.error RenderError.unexpected, tr)
    | some h =>
      let chars : List (Img × Nat) := text.map (fun c =>
        ((st.dict c).getD emptyImg,
         if c.code = 32 then SPACE_WIDTH else ((st.dict c).getD emptyImg).width))
      let totalWidth := (chars.map Prod.snd).sum
      let canvas : Img := ⟨totalWidth, h, fun _ _ => transPix⟩
      (Except.ok (pasteFrom canvas 0 chars), tr)

/-- `generate_image_with_filename` (`src/main.py` lines 65-110): compose, then
save to `DESKTOP_PATH/filename` and return `(filename, None)`; on any caught
exception return `(None, error)`. -/
def generate_image_with_filename (text : List Ch) (filename : String)
    (fp : String × String × String) (fs : FS) :
    (Option String × Option RenderError) × List Ev :=
  match composeResult text fp fs with
  | (Except.error e, tr) => ((none, some e), tr)
  | (Except.ok _, tr) =>
    ((some filename, none), tr ++ [Ev.save (DESKTOP_PATH ++ "/" ++ filename)])

/-! ## The filename generator (`generate_filename`, `src/main.py` lines 18-22) -/

/-- `str.split()`: split on runs of whitespace, discarding empty pieces. -/
def splitWsAux : List Ch → List Ch → List (List Ch)
  | [], acc => if acc.isEmpty then [] else [acc.reverse]
  | c :: cs, acc =>
    if c.isWhite then
      (if acc.isEmpty then splitWsAux cs [] else acc.reverse :: splitWsAux cs [])
    else splitWsAux cs (c :: acc)

/-- `user_input.split()`. -/
def splitWs (l : List Ch) : List (List Ch) := splitWsAux l []

/-- `str.isalnum` on a token: non-empty and all characters alphanumeric. -/
def strIsAlnum (t : List Ch) : Bool :=
  !t.isEmpty && t.all (fun c => c.isAlnum)

/-- The character `'-'` used as the join separator. -/
def hyphenCh : Ch := mkSym 45 "-"

/-- The `".png"` suffix as characters. -/
def dotPng : List Ch :=
  [mkSym 46 ".", mkLower 112 "p", mkLower 110 "n", mkLower 103 "g"]

/-- `generate_filename` (`src/main.py` lines 18-22), with the wall-clock
timestamp (`datetime.now().strftime("%Y%m%d-%H%M%S")`) passed as `ts`. -/
def generate_filename (userInput ts : List Ch) : List Ch :=
  let sanitized := List.intercalate [hyphenCh] ((splitWs userInput).filter strIsAlnum)
  (sanitized ++ [hyphenCh] ++ ts ++ dotPng).take MAX_FILENAME_LENGTH

/-! ## The UI entry point (`generate_and_display_image`, `src/src/ui.py` lines 28-57) -/

/-- A message box shown by the UI. -/
inductive Dialog where
  | infoClosing
  | errorEmptyInput
  | errorRender (e : RenderError)
  | successSaved (filename : String)
deriving DecidableEq

/-- Code points of `"exit"`. -/
def exitCodes : List Nat := [101, 120, 105, 116]

/-- Python `str.strip()`. -/
def pyStrip (l : List Ch) : List Ch :=
  ((l.dropWhile (fun c => c.isWhite)).reverse.dropWhile (fun c => c.isWhite)).reverse

/-- Render a character list to the string Python would pass along. -/
def renderStr (l : List Ch) : String :=
  l.foldl (fun acc c => acc ++ c.s) ""

/-- `generate_and_display_image` (`src/src/ui.py` lines 28-57).  Note that
`root.quit()` does not return, so execution continues past the `'exit'` check;
the empty-input check runs before any filename/paths/render work. -/
def generate_and_display_image (text : List Ch) (font : Nat) (color : String)
    (fs : FS) (ts : List Ch) : List Dialog × List Ev :=
  let d0 := if text.map Ch.lowerCode = exitCodes then [Dialog.infoClosing] else []
  if (pyStrip text).isEmpty then
    (d0 ++ [Dialog.errorEmptyInput], [])
  else
    let filename := generate_filename text ts
    let fp := get_font_paths font color
    let r := generate_image_with_filename text (renderStr filename) fp fs
    match r.1 with
    | (_, some e) => (d0 ++ [Dialog.errorRender e], r.2)
    | (p, none) => (d0 ++ [Dialog.successSaved (p.getD "")], r.2)

/-! ## Projections used to state the theorems -/

/-- Did the compositor succeed? -/
def isOkB : Except RenderError Img → Bool
  | Except.ok _ => true
  | Except.error _ => false

/-- Width of the composed canvas, when composition succeeded. -/
def widthOf : Except RenderError Img → Option Nat
  | Except.ok i => some i.width
  | Except.error _ => none

/-- Height of the composed canvas, when composition succeeded. -/
def heightOf : Except RenderError Img → Option Nat
  | Except.ok i => some i.height
  | Except.error _ => none

/-- Pixel of the composed canvas, when composition succeeded. -/
def pxOf : Except RenderError Img → Nat → Nat → Pix
  | Except.ok i, x, y => i.px x y
  | Except.error _, _, _ => transPix

/-- Number of `Image.open` reads in a trace. -/
def countOpens (tr : List Ev) : Nat :=
  (tr.filter (fun e => match e with | Ev.openFile _ => true | _ => false)).length

/-- Number of `img.save` writes in a trace. -/
def countSaves (tr : List Ev) : Nat :=
  (tr.filter (fun e => match e with | Ev.save _ => true | _ => false)).length

/-- Two images have identical pixel content: same size, equal pixels inside. -/
def identicalContent (a b : Img) : Prop :=
  a.width = b.width ∧ a.height = b.height ∧
    ∀ x < a.width, ∀ y < a.height, a.px x y = b.px x y

/-- Invariant: every cached image is the one a fresh load would produce. -/
def DictOK (fs : FS) (fp : String × String × String) (st : LoopState) : Prop :=
  ∀ c i, st.dict c = some i → glyphOf fs fp c = some i

/-- Horizontal offset of the `i`-th entry of a paste list: the sum of the
advance widths of the entries before it. -/
def segOff : List (Img × Nat) → Nat → Nat
  | _, 0 => 0
  | [], _ + 1 => 0
  | p :: rest, i + 1 => p.2 + segOff rest i

/-- Horizontal offset of the `i`-th character of the text: the sum of the
advance widths of the characters before it. -/
def textOff (fs : FS) (fp : String × String × String) : List Ch → Nat → Nat
  | _, 0 => 0
  | [], _ + 1 => 0
  | c :: rest, i + 1 => advance fs fp c + textOff fs fp rest i

/-- The canonical paste list of a text: each character's loaded image paired
with its advance width. -/
def pasteList (fs : FS) (fp : String × String × String) (text : List Ch) :
    List (Img × Nat) :=
  text.map (fun d => ((glyphOf fs fp d).getD emptyImg, advance fs fp d))

/-- The composed image of a successful result (`emptyImg` on failure). -/
def imgOf : Except RenderError Img → Img
  | Except.ok i => i
  | Except.error _ => emptyImg

instance (a b : Img) : Decidable (identicalContent a b) := by
  unfold identicalContent
  infer_instance

/-! ### Concrete fixtures for counterexamples and witnesses -/

/-- Asset roots of font 1, color Blue. -/
def demoFp : String × String × String := get_font_paths 1 "Blue"

/-- The letter `A`. -/
def chA : Ch := mkUpper 65 "A"

/-- The letter `B`. -/
def chB : Ch := mkUpper 66 "B"

/-- SNOWMAN, a character absent from the special-character table. -/
def badCh : Ch := mkSym 9731 "☃"

/-- A 1x1 glyph, fully transparent but with a nonzero red channel. -/
def gA : Img := ⟨1, 1, fun _ _ => (10, 0, 0, 0)⟩

/-- A 1x1 glyph, fully transparent with a different red channel. -/
def gB : Img := ⟨1, 1, fun _ _ => (20, 0, 0, 0)⟩

/-- A 2x2 fully opaque white glyph. -/
def gC : Img := ⟨2, 2, fun _ _ => (255, 255, 255, 255)⟩

/-- Resolved asset path of `chA` under `demoFp`. -/
def pathA : String := "Assets/FONTS/Font-1/Font-1-Blue/Letters/Upper-Case/A.png"

/-- Resolved asset path of `chB` under `demoFp`. -/
def pathB : String := "Assets/FONTS/Font-1/Font-1-Blue/Letters/Upper-Case/B.png"

/-- Asset store holding the two transparent glyphs for `A` and `B`. -/
def fs9 : FS := [(pathA, FileContent.image gA), (pathB, FileContent.image gB)]

/-- Asset store holding opaque glyphs for `A` and `B`. -/
def fsC : FS := [(pathA, FileContent.image gC), (pathB, FileContent.image gC)]

/-- The input `"Hello World!"` as characters. -/
def helloWorld : List Ch :=
  [mkUpper 72 "H", mkLower 101 "e", mkLower 108 "l", mkLower 108 "l", mkLower 111 "o",
   spaceCh,
   mkUpper 87 "W", mkLower 111 "o", mkLower 114 "r", mkLower 108 "l", mkLower 100 "d",
   mkSym 33 "!"]

/-- The token `Hello` as characters. -/
def helloChs : List Ch :=
  [mkUpper 72 "H", mkLower 101 "e", mkLower 108 "l", mkLower 108 "l", mkLower 111 "o"]

/-- The string `Hello-World` as characters (what the claim expects the
sanitized portion to be). -/
def helloWorldJoined : List Ch :=
  [mkUpper 72 "H", mkLower 101 "e", mkLower 108 "l", mkLower 108 "l", mkLower 111 "o",
   hyphenCh,
   mkUpper 87 "W", mkLower 111 "o", mkLower 114 "r", mkLower 108 "l", mkLower 100 "d"]

/-- A concrete timestamp `20251012-101112` in `%Y%m%d-%H%M%S` form. -/
def ts0 : List Ch :=
  [mkDigit 50 "2", mkDigit 48 "0", mkDigit 50 "2", mkDigit 53 "5",
   mkDigit 49 "1", mkDigit 48 "0", mkDigit 49 "1", mkDigit 50 "2",
   hyphenCh,
   mkDigit 49 "1", mkDigit 48 "0", mkDigit 49 "1", mkDigit 49 "1",
   mkDigit 49 "1", mkDigit 50 "2"]

/-! ## Basic lemmas about the locator and the loop -/

/-- For a non-space character the locator probes exactly `pathOf c fp` and
returns it when the file exists, else fails naming `c`. -/
theorem get_character_image_path_eq (c : Ch) (fp : String × String × String) (fs : FS)
    (hc : c.code ≠ 32) :
    get_character_image_path c fp fs =
      (if fsIsFile fs (pathOf c fp) then Except.ok (some (pathOf c fp)) else Except.error c,
       [Ev.isfile (pathOf c fp)]) := by
  unfold get_character_image_path pathOf checkFile
  rcases ha : c.isAlpha with _ | _ <;> rcases hd : c.isDigit with _ | _ <;>
    simp [ha, hd, hc] <;> split <;> simp

/-- A successful load: `stepChar` updates the state with `glyphOf` and emits
no event for a space, one probe and one read otherwise. -/
theorem stepChar_ok (fp : String × String × String) (fs : FS) (st : LoopState) (c : Ch)
    (g : Img) (hg : glyphOf fs fp c = some g) :
    stepChar fp fs st c =
      (Except.ok (updateState st c g),
       if c.code = 32 then []
       else [Ev.isfile (pathOf c fp), Ev.openFile (pathOf c fp)]) := by
  by_cases h32 : c.code = 32
  · have : g = spaceImg := by
      have := hg
      unfold glyphOf at this
      simp [h32] at this
      exact this.symm
    subst this
    simp [stepChar, h32]
  · unfold glyphOf at hg
    rw [if_neg h32] at hg
    rcases hlk : fsLookup fs (pathOf c fp) with _ | fc
    · rw [hlk] at hg; simp at hg
    · rcases fc with g2 | _
      · rw [hlk] at hg
        simp at hg
        subst hg
        unfold stepChar
        rw [if_neg h32, get_character_image_path_eq c fp fs h32]
        have hisf : fsIsFile fs (pathOf c fp) = true := by
          unfold fsIsFile; rw [hlk]; rfl
        simp [hisf, hlk, h32]
      · rw [hlk] at hg; simp at hg

/-- A missing file: `stepChar` fails with the error naming `c` after the
single existence probe. -/
theorem stepChar_missing (fp : String × String × String) (fs : FS) (st : LoopState) (c : Ch)
    (hc : c.code ≠ 32) (hlk : fsLookup fs (pathOf c fp) = none) :
    stepChar fp fs st c =
      (Except.error (RenderError.glyphNotFound c), [Ev.isfile (pathOf c fp)]) := by
  unfold stepChar
  rw [if_neg hc, get_character_image_path_eq c fp fs hc]
  have hisf : fsIsFile fs (pathOf c fp) = false := by
    unfold fsIsFile; rw [hlk]; rfl
  simp [hisf]

/-- Saves count distributes over trace concatenation. -/
theorem countSaves_append (a b : List Ev) :
    countSaves (a ++ b) = countSaves a + countSaves b := by
  simp [countSaves, List.filter_append]

/-- Reads count distributes over trace concatenation. -/
theorem countOpens_append (a b : List Ev) :
    countOpens (a ++ b) = countOpens a + countOpens b := by
  simp [countOpens, List.filter_append]

/-- When every character of `text` is loadable, the loop succeeds; the final
dictionary maps each character of `text` to its glyph, the trace contains one
read per non-space occurrence and no write, and `img_height` is the height of
the first processed character's image (when it was not already set). -/
theorem runLoop_ok (fp : String × String × String) (fs : FS) (text : List Ch) :
    ∀ (st : LoopState),
    (∀ c ∈ text, (glyphOf fs fp c).isSome = true) →
    DictOK fs fp st →
    ∃ st' tr, runLoop fp fs st text = (Except.ok st', tr) ∧
      DictOK fs fp st' ∧
      (∀ c ∈ text, st'.dict c = glyphOf fs fp c) ∧
      (∀ c i, st.dict c = some i → (st'.dict c).isSome = true) ∧
      (∀ h, st.imgHeight = some h → st'.imgHeight = some h) ∧
      countSaves tr = 0 ∧
      countOpens tr = text.countP (fun c => !(c.code == 32)) ∧
      (st.imgHeight = none → ∀ c cs, text = c :: cs →
        st'.imgHeight = some (((glyphOf fs fp c).getD emptyImg).height)) := by
  induction text with
  | nil =>
    intro st _ hdict
    refine ⟨st, [], rfl, hdict, by simp, ?_, fun h hh => hh, rfl, rfl, ?_⟩
    · intro c i h; simp [h]
    · intro _ c cs h; cases h
  | cons c cs ih =>
    intro st hload hdict
    obtain ⟨g, hg⟩ := Option.isSome_iff_exists.mp (hload c (by simp))
    have hstep := stepChar_ok fp fs st c g hg
    have hdict2 : DictOK fs fp (updateState st c g) := by
      intro c2 i h2
      by_cases hc2 : c2 = c
      · subst hc2
        simp [updateState] at h2
        rw [hg, h2]
      · simp [updateState, hc2] at h2
        exact hdict c2 i h2
    obtain ⟨st', tr', hrun, hdict', hmem, hdom, hht, hsv, hop, hfirst⟩ :=
      ih (updateState st c g) (fun d hd => hload d (by simp [hd])) hdict2
    have hup : (updateState st c g).dict c = some g := by simp [updateState]
    refine ⟨st', (if c.code = 32 then [] else
        [Ev.isfile (pathOf c fp), Ev.openFile (pathOf c fp)]) ++ tr', ?_, hdict', ?_, ?_, ?_, ?_, ?_, ?_⟩
    · show runLoop fp fs st (c :: cs) = _
      unfold runLoop
      rw [hstep]
      simp only [hrun]
    · intro d hd
      rcases List.mem_cons.mp hd with h | h
      · subst h
        obtain ⟨i, hi⟩ := Option.isSome_iff_exists.mp (hdom d g hup)
        rw [hi, ← hdict' d i hi]
      · exact hmem d h
    · intro d i h
      by_cases hdc : d = c
      · subst hdc; exact hdom d g hup
      · exact hdom d i (by simpa [updateState, hdc] using h)
    · intro h hh
      apply hht
      simp [updateState, hh]
    · rw [countSaves_append, hsv]
      split <;> rfl
    · rw [countOpens_append, hop, List.countP_cons]
      by_cases h32 : c.code = 32
      · simp [h32, countOpens]
      · simp [h32, countOpens, List.filter]
        omega
    · intro hnone d ds hcons
      injection hcons with h1 h2
      subst h1
      have hupd : (updateState st c g).imgHeight = some g.height := by
        simp [updateState, hnone]
      rw [hht g.height hupd, hg]
      rfl

/-- Pasting never changes the canvas width. -/
theorem pasteFrom_width : ∀ (l : List (Img × Nat)) (canvas : Img) (x0 : Nat),
    (pasteFrom canvas x0 l).width = canvas.width
  | [], _, _ => rfl
  | (g, w) :: rest, canvas, x0 => pasteFrom_width rest (pasteAt canvas g x0) (x0 + w)

/-- Pasting never changes the canvas height. -/
theorem pasteFrom_height : ∀ (l : List (Img × Nat)) (canvas : Img) (x0 : Nat),
    (pasteFrom canvas x0 l).height = canvas.height
  | [], _, _ => rfl
  | (g, w) :: rest, canvas, x0 => pasteFrom_height rest (pasteAt canvas g x0) (x0 + w)

/-- Successful composition, described canonically: when every character of the
non-empty text is loadable, `composeResult` returns the canvas obtained by
pasting each character's glyph in text order on a transparent canvas whose
width is the sum of the advances and whose height is the first character's
image height; the trace reads once per non-space occurrence and never writes. -/
theorem composeResult_ok (fp : String × String × String) (fs : FS) (c : Ch) (cs : List Ch)
    (hload : ∀ d ∈ c :: cs, (glyphOf fs fp d).isSome = true) :
    ∃ tr, composeResult (c :: cs) fp fs =
      (Except.ok (pasteFrom
          ⟨(((c :: cs)).map (advance fs fp)).sum,
           ((glyphOf fs fp c).getD emptyImg).height, fun _ _ => transPix⟩ 0
          ((c :: cs).map (fun d => ((glyphOf fs fp d).getD emptyImg, advance fs fp d)))),
       tr) ∧
      countSaves tr = 0 ∧
      countOpens tr = (c :: cs).countP (fun d => !(d.code == 32)) := by
  obtain ⟨st', tr, hrun, hdict', hmem, hdom, hht, hsv, hop, hfirst⟩ :=
    runLoop_ok fp fs (c :: cs) ⟨none, fun _ => none⟩ hload (fun a i h => by simp at h)
  have hh : st'.imgHeight = some ((glyphOf fs fp c).getD emptyImg).height :=
    hfirst rfl c cs rfl
  have hchars : (c :: cs).map (fun d =>
        ((st'.dict d).getD emptyImg,
         if d.code = 32 then SPACE_WIDTH else ((st'.dict d).getD emptyImg).width)) =
      (c :: cs).map (fun d => ((glyphOf fs fp d).getD emptyImg, advance fs fp d)) := by
    apply List.map_congr_left
    intro d hd
    rw [hmem d hd]
    simp [advance]
  refine ⟨tr, ?_, hsv, hop⟩
  unfold composeResult
  rw [hrun]
  simp only [hh, hchars, List.map_map]
  simp [Function.comp]
  have hsnd : (List.map (Prod.snd ∘ fun d =>
      ((glyphOf fs fp d).getD emptyImg, advance fs fp d)) cs) =
      List.map (advance fs fp) cs := by
    apply List.map_congr_left
    intro d _
    rfl
  rw [hsnd]

/-- When the loop fails, `composeResult` propagates the error and trace. -/
theorem composeResult_err (text : List Ch) (fp : String × String × String) (fs : FS)
    (e : RenderError) (tr : List Ev)
    (hrun : runLoop fp fs ⟨none, fun _ => none⟩ text = (Except.error e, tr)) :
    composeResult text fp fs = (Except.error e, tr) := by
  unfold composeResult
  rw [hrun]

/-- If every character before `c` is loadable, `c` is not a space, and no file
exists at `c`'s resolved path, the loop fails with the error naming `c` and a
write-free trace. -/
theorem runLoop_err (fp : String × String × String) (fs : FS) (c : Ch) (post : List Ch)
    (hc : c.code ≠ 32) (hlk : fsLookup fs (pathOf c fp) = none) :
    ∀ (pre : List Ch) (st : LoopState),
    (∀ d ∈ pre, (glyphOf fs fp d).isSome = true) →
    ∃ tr, runLoop fp fs st (pre ++ c :: post) =
        (Except.error (RenderError.glyphNotFound c), tr) ∧
      countSaves tr = 0 := by
  intro pre
  induction pre with
  | nil =>
    intro st _
    refine ⟨[Ev.isfile (pathOf c fp)], ?_, rfl⟩
    show runLoop fp fs st (c :: post) = _
    unfold runLoop
    rw [stepChar_missing fp fs st c hc hlk]
  | cons d ds ih =>
    intro st hload
    obtain ⟨g, hg⟩ := Option.isSome_iff_exists.mp (hload d (by simp))
    obtain ⟨tr', hrun', hsv'⟩ :=
      ih (updateState st d g) (fun a ha => hload a (by simp [ha]))
    refine ⟨(if d.code = 32 then [] else
        [Ev.isfile (pathOf d fp), Ev.openFile (pathOf d fp)]) ++ tr', ?_, ?_⟩
    · show runLoop fp fs st (d :: (ds ++ c :: post)) = _
      unfold runLoop
      rw [stepChar_ok fp fs st d g hg]
      simp only [hrun']
    · rw [countSaves_append, hsv']
      split <;> rfl

/-! ## Positioning lemmas for the paste loop -/

/-- Pixels strictly left of the cursor are never touched by later pastes
(each glyph occupies `[cursor, cursor + width)` and the cursor only grows). -/
theorem pasteFrom_px_left : ∀ (l : List (Img × Nat)) (canvas : Img) (x0 x y : Nat),
    (∀ p ∈ l, p.1.width ≤ p.2) → x < x0 →
    (pasteFrom canvas x0 l).px x y = canvas.px x y
  | [], _, _, _, _, _, _ => rfl
  | (g, w) :: rest, canvas, x0, x, y, hw, hx => by
    show (pasteFrom (pasteAt canvas g x0) (x0 + w) rest).px x y = _
    rw [pasteFrom_px_left rest (pasteAt canvas g x0) (x0 + w) x y
      (fun p hp => hw p (by simp [hp])) (by omega)]
    have hn : ¬(x0 ≤ x ∧ x < x0 + g.width ∧ y < g.height) := by omega
    simp [pasteAt, hn]

/-- Pixel inside the `i`-th glyph's box: the final canvas holds the blend of
the underlying canvas pixel with that glyph's pixel. -/
theorem pasteFrom_px_at : ∀ (l : List (Img × Nat)) (canvas : Img) (x0 i dx y : Nat),
    (∀ p ∈ l, p.1.width ≤ p.2) → i < l.length →
    dx < (l.getD i (emptyImg, 0)).1.width → y < (l.getD i (emptyImg, 0)).1.height →
    (pasteFrom canvas x0 l).px (x0 + segOff l i + dx) y =
      blendPix (canvas.px (x0 + segOff l i + dx) y) ((l.getD i (emptyImg, 0)).1.px dx y)
  | [], _, _, i, _, _, _, hi, _, _ => by simp at hi
  | (g, w) :: rest, canvas, x0, 0, dx, y, hw, _, hdx, hy => by
    have hgw : g.width ≤ w := hw (g, w) (by simp)
    have hdx' : dx < g.width := by simpa using hdx
    have hy' : y < g.height := by simpa using hy
    show (pasteFrom (pasteAt canvas g x0) (x0 + w) rest).px (x0 + segOff ((g, w) :: rest) 0 + dx) y = _
    have hoff : x0 + segOff ((g, w) :: rest) 0 + dx = x0 + dx := by
      simp [segOff]
    rw [hoff]
    rw [pasteFrom_px_left rest (pasteAt canvas g x0) (x0 + w) (x0 + dx) y
      (fun p hp => hw p (by simp [hp])) (by omega)]
    have hc : x0 ≤ x0 + dx ∧ x0 + dx < x0 + g.width ∧ y < g.height := by omega
    simp [pasteAt, hc, segOff]
  | (g, w) :: rest, canvas, x0, i + 1, dx, y, hw, hi, hdx, hy => by
    have hgw : g.width ≤ w := hw (g, w) (by simp)
    have hi' : i < rest.length := by simpa using hi
    have hdx' : dx < (rest.getD i (emptyImg, 0)).1.width := by simpa using hdx
    have hy' : y < (rest.getD i (emptyImg, 0)).1.height := by simpa using hy
    show (pasteFrom (pasteAt canvas g x0) (x0 + w) rest).px
        (x0 + segOff ((g, w) :: rest) (i + 1) + dx) y = _
    have hoff : x0 + segOff ((g, w) :: rest) (i + 1) + dx =
        (x0 + w) + segOff rest i + dx := by
      simp [segOff]
      omega
    rw [hoff]
    rw [pasteFrom_px_at rest (pasteAt canvas g x0) (x0 + w) i dx y
      (fun p hp => hw p (by simp [hp])) hi' hdx' hy']
    have hn : ¬(x0 ≤ x0 + w + segOff rest i + dx ∧
        x0 + w + segOff rest i + dx < x0 + g.width ∧ y < g.height) := by omega
    have hpx : (pasteAt canvas g x0).px (x0 + w + segOff rest i + dx) y =
        canvas.px (x0 + w + segOff rest i + dx) y := by
      simp [pasteAt, hn]
    rw [hpx]
    simp [segOff]

/-- `segOff` of the canonical paste list is `textOff`. -/
theorem segOff_pasteList (fs : FS) (fp : String × String × String) :
    ∀ (text : List Ch) (i : Nat), segOff (pasteList fs fp text) i = textOff fs fp text i
  | _, 0 => by cases ‹List Ch› <;> rfl
  | [], _ + 1 => rfl
  | c :: rest, i + 1 => by
    show advance fs fp c + segOff (pasteList fs fp rest) i = _
    rw [segOff_pasteList fs fp rest i]
    rfl

/-- `getD` through the canonical paste list. -/
theorem getD_pasteList (fs : FS) (fp : String × String × String) :
    ∀ (text : List Ch) (i : Nat), i < text.length →
    (pasteList fs fp text).getD i (emptyImg, 0) =
      ((glyphOf fs fp (text.getD i spaceCh)).getD emptyImg,
       advance fs fp (text.getD i spaceCh))
  | [], i, hi => by simp at hi
  | c :: rest, 0, _ => rfl
  | c :: rest, i + 1, hi => by
    show (pasteList fs fp rest).getD i (emptyImg, 0) = _
    exact getD_pasteList fs fp rest i (by simpa using hi)

/-- Every glyph in the canonical paste list is no wider than its advance. -/
theorem pasteList_width_le (fs : FS) (fp : String × String × String) (text : List Ch) :
    ∀ p ∈ pasteList fs fp text, p.1.width ≤ p.2 := by
  intro p hp
  obtain ⟨d, hd, rfl⟩ := List.mem_map.mp hp
  by_cases h32 : d.code = 32
  · have : glyphOf fs fp d = some spaceImg := by simp [glyphOf, h32]
    simp [advance, h32, this, spaceImg]
  · simp [advance, h32]

/-- `textOff` at the successor index adds the `i`-th advance. -/
theorem textOff_succ (fs : FS) (fp : String × String × String) :
    ∀ (text : List Ch) (i : Nat), i < text.length →
    textOff fs fp text (i + 1) = textOff fs fp text i + advance fs fp (text.getD i spaceCh)
  | [], i, hi => by simp at hi
  | c :: rest, 0, _ => by simp [textOff]
  | c :: rest, i + 1, hi => by
    show advance fs fp c + textOff fs fp rest (i + 1) = _
    rw [textOff_succ fs fp rest i (by simpa using hi)]
    have hg : (c :: rest).getD (i + 1) spaceCh = rest.getD i spaceCh := rfl
    rw [hg]
    show _ = advance fs fp c + textOff fs fp rest i + _
    omega

/-- `textOff` is monotone in the index. -/
theorem textOff_mono (fs : FS) (fp : String × String × String) :
    ∀ (text : List Ch) (i j : Nat), i ≤ j →
    textOff fs fp text i ≤ textOff fs fp text j
  | _, 0, _, _ => by cases ‹List Ch› <;> simp [textOff]
  | [], _ + 1, _, _ => by simp [textOff]
  | c :: rest, i + 1, j + 1, hij => by
    show advance fs fp c + textOff fs fp rest i ≤ advance fs fp c + textOff fs fp rest j
    have := textOff_mono fs fp rest i j (by omega)
    omega

/-- Inversion: a successful step means the character was loadable and the
state was updated with its image. -/
theorem stepChar_ok_inv (fp : String × String × String) (fs : FS) (st : LoopState)
    (c : Ch) (st2 : LoopState) (tr : List Ev)
    (h : stepChar fp fs st c = (Except.ok st2, tr)) :
    ∃ g, glyphOf fs fp c = some g ∧ st2 = updateState st c g := by
  by_cases h32 : c.code = 32
  · refine ⟨spaceImg, by simp [glyphOf, h32], ?_⟩
    simp [stepChar, h32] at h
    exact h.1.symm
  · unfold stepChar at h
    rw [if_neg h32, get_character_image_path_eq c fp fs h32] at h
    by_cases hf : fsIsFile fs (pathOf c fp)
    · rcases hlk : fsLookup fs (pathOf c fp) with _ | fc
      · exfalso
        unfold fsIsFile at hf
        rw [hlk] at hf
        simp at hf
      · rcases fc with g | _
        · simp [hf, hlk] at h
          exact ⟨g, by simp [glyphOf, h32, hlk], h.1.symm⟩
        · simp [hf, hlk] at h
    · simp [hf] at h

/-- A successful loop keeps an already-set `img_height`. -/
theorem runLoop_keeps_height (fp : String × String × String) (fs : FS) :
    ∀ (text : List Ch) (st st' : LoopState) (tr : List Ev),
    runLoop fp fs st text = (Except.ok st', tr) →
    ∀ h, st.imgHeight = some h → st'.imgHeight = some h
  | [], st, st', tr, hrun, h, hh => by
    unfold runLoop at hrun
    simp at hrun
    rw [← hrun.1]
    exact hh
  | c :: cs, st, st', tr, hrun, h, hh => by
    unfold runLoop at hrun
    rcases hstep : stepChar fp fs st c with ⟨r, tr0⟩
    rw [hstep] at hrun
    cases r with
    | error e => simp at hrun
    | ok st2 =>
      obtain ⟨g, hg, hst2⟩ := stepChar_ok_inv fp fs st c st2 tr0 hstep
      simp only [] at hrun
      rcases hr : runLoop fp fs st2 cs with ⟨r2, tr2⟩
      rw [hr] at hrun
      simp at hrun
      subst hst2
      exact runLoop_keeps_height fp fs cs (updateState st c g) st' tr2
        (by rw [hr, hrun.1]) h (by simp [updateState, hh])

/-- Inversion for the height: a successful run starting with unset
`img_height` on a non-empty text sets it to the first image's height. -/
theorem runLoop_first_height (fp : String × String × String) (fs : FS)
    (c : Ch) (cs : List Ch) (st' : LoopState) (tr : List Ev)
    (hrun : runLoop fp fs ⟨none, fun _ => none⟩ (c :: cs) = (Except.ok st', tr)) :
    ∃ g, glyphOf fs fp c = some g ∧ st'.imgHeight = some g.height := by
  unfold runLoop at hrun
  rcases hstep : stepChar fp fs ⟨none, fun _ => none⟩ c with ⟨r, tr0⟩
  rw [hstep] at hrun
  cases r with
  | error e => simp at hrun
  | ok st2 =>
    obtain ⟨g, hg, hst2⟩ := stepChar_ok_inv fp fs _ c st2 tr0 hstep
    refine ⟨g, hg, ?_⟩
    simp only [] at hrun
    rcases hr : runLoop fp fs st2 cs with ⟨r2, tr2⟩
    rw [hr] at hrun
    simp at hrun
    apply runLoop_keeps_height fp fs cs st2 st' tr2 (by rw [hr, hrun.1]) g.height
    subst hst2
    simp [updateState]

/-- One step never writes. -/
theorem stepChar_no_saves (fp : String × String × String) (fs : FS)
    (st : LoopState) (c : Ch) :
    countSaves (stepChar fp fs st c).2 = 0 := by
  by_cases h32 : c.code = 32
  · simp [stepChar, h32, countSaves]
  · unfold stepChar
    rw [if_neg h32, get_character_image_path_eq c fp fs h32]
    by_cases hf : fsIsFile fs (pathOf c fp)
    · rcases hlk : fsLookup fs (pathOf c fp) with _ | fc
      · exfalso
        unfold fsIsFile at hf
        rw [hlk] at hf
        simp at hf
      · rcases fc with g | _ <;> simp [hf, hlk, countSaves, h32]
    · simp [hf, countSaves, h32]

/-- The loop never writes, whether it succeeds or fails. -/
theorem runLoop_no_saves (fp : String × String × String) (fs : FS) :
    ∀ (text : List Ch) (st : LoopState),
    countSaves (runLoop fp fs st text).2 = 0
  | [], st => rfl
  | c :: cs, st => by
    unfold runLoop
    rcases hstep : stepChar fp fs st c with ⟨r, tr0⟩
    have h0 : countSaves tr0 = 0 := by
      have h1 := stepChar_no_saves fp fs st c
      rw [hstep] at h1
      exact h1
    cases r with
    | error e => simpa using h0
    | ok st2 =>
      simp only []
      rw [countSaves_append, h0, runLoop_no_saves fp fs cs st2]

/-- The compositor trace is exactly the loop trace. -/
theorem composeResult_trace (text : List Ch) (fp : String × String × String) (fs : FS) :
    (composeResult text fp fs).2 = (runLoop fp fs ⟨none, fun _ => none⟩ text).2 := by
  unfold composeResult
  rcases hrun : runLoop fp fs ⟨none, fun _ => none⟩ text with ⟨r, tr⟩
  cases r with
  | error e => rfl
  | ok st =>
    rcases hh : st.imgHeight with _ | v <;> simp [hh]

/-! ## Claim theorems -/

/-- C1 (counterexample): the empty text vacuously consists only of supported
characters with existing assets, yet compose fails — `img_height` stays
`None` and `Image.new` raises — so the claim as stated is false for the
explicit input `text = ""`. -/
theorem c1_counterexample :
    (∀ c ∈ ([] : List Ch), c.WF ∧
      (c.isAlpha = true ∨ c.isDigit = true ∨ c.code = 32 ∨
        (specialLookup c.code).isSome = true) ∧
      (c.code ≠ 32 → ∃ g, fsLookup fs9 (pathOf c demoFp) = some (FileContent.image g))) ∧
    isOkB (composeResult [] demoFp fs9).1 = false := by
  constructor
  · intro c hc
    cases hc
  · rfl

/-- C1 (amended: non-empty text): for every non-empty text whose characters
are letters, digits, space, or special-table characters, with a decodable
glyph asset at every resolved path, compose succeeds and the canvas width is
the sum, in text order, of the advances — the glyph width for non-space
characters and `SPACE_WIDTH` for spaces. -/
theorem c1_width (fp : String × String × String) (fs : FS) (c : Ch) (cs : List Ch)
    (_hwf : ∀ d ∈ c :: cs, d.WF)
    (_hclass : ∀ d ∈ c :: cs, d.isAlpha = true ∨ d.isDigit = true ∨ d.code = 32 ∨
      (specialLookup d.code).isSome = true)
    (hasset : ∀ d ∈ c :: cs, d.code ≠ 32 →
      ∃ g, fsLookup fs (pathOf d fp) = some (FileContent.image g)) :
    isOkB (composeResult (c :: cs) fp fs).1 = true ∧
    widthOf (composeResult (c :: cs) fp fs).1 =
      some (((c :: cs).map (advance fs fp)).sum) := by
  have hload : ∀ d ∈ c :: cs, (glyphOf fs fp d).isSome = true := by
    intro d hd
    by_cases h32 : d.code = 32
    · simp [glyphOf, h32]
    · obtain ⟨g, hg⟩ := hasset d hd h32
      simp [glyphOf, h32, hg]
  obtain ⟨tr, hcomp, _, _⟩ := composeResult_ok fp fs c cs hload
  rw [hcomp]
  refine ⟨rfl, ?_⟩
  show some (pasteFrom _ 0 _).width = _
  rw [pasteFrom_width]

/-- C1 witness: a concrete one-letter text over a store holding its glyph. -/
theorem c1_width_witness :
    isOkB (composeResult [chA] demoFp fs9).1 = true ∧
    widthOf (composeResult [chA] demoFp fs9).1 =
      some (([chA].map (advance fs9 demoFp)).sum) :=
  c1_width demoFp fs9 chA []
    (by intro d hd; simp at hd; subst hd; decide)
    (by intro d hd; simp at hd; subst hd; decide)
    (by intro d hd h32; simp at hd; subst hd; exact ⟨gA, rfl⟩)

/-- C2: whenever compose succeeds on a non-empty text, the canvas height is
the height of the image resolved for the FIRST character of the text — and
exactly 1 when the text starts with a space, since the space placeholder has
height 1; later characters never change it. -/
theorem c2_first_height (fp : String × String × String) (fs : FS) (c : Ch) (cs : List Ch)
    (hok : isOkB (composeResult (c :: cs) fp fs).1 = true) :
    heightOf (composeResult (c :: cs) fp fs).1 =
      some (((glyphOf fs fp c).getD emptyImg).height) ∧
    (c.code = 32 → heightOf (composeResult (c :: cs) fp fs).1 = some 1) := by
  have main : heightOf (composeResult (c :: cs) fp fs).1 =
      some (((glyphOf fs fp c).getD emptyImg).height) := by
    unfold composeResult at hok ⊢
    rcases hrun : runLoop fp fs ⟨none, fun _ => none⟩ (c :: cs) with ⟨r, tr⟩
    cases r with
    | error e =>
      rw [hrun] at hok
      simp [isOkB] at hok
    | ok st =>
      obtain ⟨g, hg, hh⟩ := runLoop_first_height fp fs c cs st tr hrun
      simp only []
      rw [hh]
      simp [heightOf, pasteFrom_height, hg]
  refine ⟨main, fun h32 => ?_⟩
  rw [main]
  simp [glyphOf, h32, spaceImg]

/-- C2 witness: concrete success whose first character is a 1x1 glyph. -/
theorem c2_first_height_witness :
    heightOf (composeResult [chA] demoFp fs9).1 =
      some (((glyphOf fs9 demoFp chA).getD emptyImg).height) :=
  (c2_first_height demoFp fs9 chA [] (by decide)).1

/-- C3: if the text contains a non-space character that is not alphabetic,
not a digit, absent from the special-character table, and has no asset file
at its resolved path — and every character before it loads — then the render
returns the failure naming exactly that character and never writes a file
(the save happens only after the whole text has been resolved and loaded). -/
theorem c3_glyph_not_found (fp : String × String × String) (fs : FS) (fname : String)
    (pre : List Ch) (c : Ch) (post : List Ch)
    (hpre : ∀ d ∈ pre, (glyphOf fs fp d).isSome = true)
    (hc32 : c.code ≠ 32)
    (_hca : c.isAlpha = false) (_hcd : c.isDigit = false)
    (_hcs : specialLookup c.code = none)
    (hmiss : fsLookup fs (pathOf c fp) = none) :
    (generate_image_with_filename (pre ++ c :: post) fname fp fs).1 =
      (none, some (RenderError.glyphNotFound c)) ∧
    countSaves (generate_image_with_filename (pre ++ c :: post) fname fp fs).2 = 0 := by
  obtain ⟨tr, hrun, hsv⟩ := runLoop_err fp fs c post hc32 hmiss pre ⟨none, fun _ => none⟩ hpre
  have hcomp := composeResult_err (pre ++ c :: post) fp fs _ tr hrun
  unfold generate_image_with_filename
  rw [hcomp]
  exact ⟨rfl, hsv⟩

/-- C3 witness: SNOWMAN over an empty asset store. -/
theorem c3_glyph_not_found_witness :
    (generate_image_with_filename [badCh] "x.png" demoFp []).1 =
      (none, some (RenderError.glyphNotFound badCh)) ∧
    countSaves (generate_image_with_filename [badCh] "x.png" demoFp []).2 = 0 :=
  c3_glyph_not_found demoFp [] "x.png" [] badCh []
    (by intro d hd; cases hd) (by decide) (by decide) (by decide) (by decide) rfl

/-- C4 (counterexample): the text `AA` triggers TWO `Image.open` reads of the
same asset, not one — the loop has no cache check before loading — so the
one-read-per-distinct-character claim is false. -/
theorem c4_counterexample :
    countOpens (composeResult [chA, chA] demoFp fs9).2 ≠ 1 ∧
    countOpens (composeResult [chA, chA] demoFp fs9).2 = 2 := by
  constructor <;> decide

/-- C4 (amended): one render reads an asset once per OCCURRENCE of each
non-space character (the read count equals the number of non-space
characters in the text), and the render still succeeds with the glyph used
at every occurrence. -/
theorem c4_reads_per_occurrence (fp : String × String × String) (fs : FS)
    (c : Ch) (cs : List Ch)
    (hload : ∀ d ∈ c :: cs, (glyphOf fs fp d).isSome = true) :
    isOkB (composeResult (c :: cs) fp fs).1 = true ∧
    countOpens (composeResult (c :: cs) fp fs).2 =
      (c :: cs).countP (fun d => !(d.code == 32)) := by
  obtain ⟨tr, hcomp, _, hop⟩ := composeResult_ok fp fs c cs hload
  rw [hcomp]
  exact ⟨rfl, hop⟩

/-- C4 witness: the repeated text `AA`. -/
theorem c4_reads_per_occurrence_witness :
    isOkB (composeResult [chA, chA] demoFp fs9).1 = true ∧
    countOpens (composeResult [chA, chA] demoFp fs9).2 =
      ([chA, chA].countP (fun d => !(d.code == 32))) :=
  c4_reads_per_occurrence demoFp fs9 chA [chA]
    (by intro d hd; simp at hd; subst hd; decide)

/-- C5 (counterexample): `filter(str.isalnum, text.split())` keeps only the
tokens that are ENTIRELY alphanumeric, so `"Hello World!"` keeps `Hello` and
drops `World!` wholesale: the sanitized portion is `Hello`, not
`Hello-World`, and the generated name does not start with `Hello-World`. -/
theorem c5_counterexample :
    generate_filename helloWorld ts0 = helloChs ++ [hyphenCh] ++ ts0 ++ dotPng ∧
    (generate_filename helloWorld ts0).take 11 ≠ helloWorldJoined := by
  constructor <;> decide

/-- C5 (amended): `generate_filename("Hello World!")` is the fully
alphanumeric tokens (only `Hello`) joined, a hyphen, the second-precision
timestamp and the `.png` extension; and for every input and timestamp the
result length never exceeds `MAX_FILENAME_LENGTH = 255`. -/
theorem c5_filename :
    generate_filename helloWorld ts0 = helloChs ++ [hyphenCh] ++ ts0 ++ dotPng ∧
    ∀ (text ts : List Ch), (generate_filename text ts).length ≤ MAX_FILENAME_LENGTH := by
  constructor
  · decide
  · intro text ts
    unfold generate_filename
    rw [List.length_take]
    exact Nat.min_le_left _ _

/-- C6: the render call always returns a pair with exactly one populated
component — `(filename, none)` on success, `(none, error)` on every caught
failure — never both, never neither. -/
theorem c6_exactly_one (text : List Ch) (fname : String)
    (fp : String × String × String) (fs : FS) :
    ((generate_image_with_filename text fname fp fs).1.1.isSome = true ∧
      (generate_image_with_filename text fname fp fs).1.2 = none) ∨
    ((generate_image_with_filename text fname fp fs).1.1 = none ∧
      (generate_image_with_filename text fname fp fs).1.2.isSome = true) := by
  unfold generate_image_with_filename
  rcases h : composeResult text fp fs with ⟨r, tr⟩
  cases r with
  | error e => right; exact ⟨rfl, rfl⟩
  | ok i => left; exact ⟨rfl, rfl⟩

/-- C7: empty or all-whitespace input is rejected by the UI entry point with
the empty-input error dialog before any filename, font-path or render work:
the filesystem event trace is empty, so no asset lookup happens and no file
is written. -/
theorem c7_invalid_input (text : List Ch) (font : Nat) (color : String)
    (fs : FS) (ts : List Ch)
    (hws : ∀ c ∈ text, c.isWhite = true) :
    generate_and_display_image text font color fs ts =
      ((if text.map Ch.lowerCode = exitCodes then [Dialog.infoClosing] else []) ++
        [Dialog.errorEmptyInput], []) := by
  have h1 : text.dropWhile (fun c => c.isWhite) = [] := by
    rw [List.dropWhile_eq_nil_iff]
    intro x hx
    simp [hws x hx]
  have hstrip : (pyStrip text).isEmpty = true := by
    unfold pyStrip
    rw [h1]
    rfl
  unfold generate_and_display_image
  rw [hstrip]
  simp

/-- C7 witness: a single space. -/
theorem c7_invalid_input_witness :
    generate_and_display_image [spaceCh] 1 "Blue" [] [] =
      ([Dialog.errorEmptyInput], []) := by
  have h := c7_invalid_input [spaceCh] 1 "Blue" [] []
    (by intro c hc; simp at hc; subst hc; rfl)
  rw [h]
  decide

/-- C8 (counterexample): a successful render writes the output file INSIDE
`generate_image_with_filename` itself (`img.save`, line 97) — the trace of a
concrete successful render contains one save event, so the compositor is not
write-free and the caller does not do the persisting. -/
theorem c8_counterexample :
    countSaves (generate_image_with_filename [chA] "A.png" demoFp fs9).2 ≠ 0 ∧
    countSaves (generate_image_with_filename [chA] "A.png" demoFp fs9).2 = 1 := by
  constructor <;> decide

/-- C8 (amended): the compositing phase performs no write (its trace contains
probes and reads only); the single save of the finished canvas is performed
by `generate_image_with_filename` itself, appended after the compositing
trace exactly when composition succeeded. -/
theorem c8_effects (text : List Ch) (fname : String)
    (fp : String × String × String) (fs : FS) :
    countSaves (composeResult text fp fs).2 = 0 ∧
    (generate_image_with_filename text fname fp fs).2 =
      (composeResult text fp fs).2 ++
        (if isOkB (composeResult text fp fs).1 = true
          then [Ev.save (DESKTOP_PATH ++ "/" ++ fname)] else []) := by
  constructor
  · rw [composeResult_trace]
    exact runLoop_no_saves fp fs text ⟨none, fun _ => none⟩
  · unfold generate_image_with_filename
    rcases h : composeResult text fp fs with ⟨r, tr⟩
    cases r with
    | error e => simp [isOkB]
    | ok i => simp [isOkB]

/-- C9 (counterexample): two DISTINCT glyphs (different red channel) that are
fully transparent compose to pixel-identical images for `AB` and `BA`,
because pasting with the glyph alpha as mask leaves the canvas untouched
where alpha is 0 — so "never identical pixel content" fails. -/
theorem c9_counterexample :
    gA.px 0 0 ≠ gB.px 0 0 ∧
    isOkB (composeResult [chA, chB] demoFp fs9).1 = true ∧
    isOkB (composeResult [chB, chA] demoFp fs9).1 = true ∧
    identicalContent (imgOf (composeResult [chA, chB] demoFp fs9).1)
      (imgOf (composeResult [chB, chA] demoFp fs9).1) := by
  refine ⟨by decide, by decide, by decide, by decide⟩

/-- C9 (amended): compositing is order-preserving and non-overlapping: in a
successful render each character's glyph is blended at the horizontal offset
equal to the sum of the advance widths of the preceding characters (over the
transparent canvas), and the advance intervals of any two positions are
disjoint.  Swapping two distinct glyphs swaps their placements, but the pixel
content can coincide when the glyphs differ only under zero alpha. -/
theorem c9_placement (fp : String × String × String) (fs : FS) (c : Ch) (cs : List Ch)
    (hload : ∀ d ∈ c :: cs, (glyphOf fs fp d).isSome = true)
    (i dx y : Nat) (hi : i < (c :: cs).length)
    (hdx : dx < ((glyphOf fs fp ((c :: cs).getD i spaceCh)).getD emptyImg).width)
    (hy : y < ((glyphOf fs fp ((c :: cs).getD i spaceCh)).getD emptyImg).height) :
    pxOf (composeResult (c :: cs) fp fs).1 (textOff fs fp (c :: cs) i + dx) y =
      blendPix transPix
        (((glyphOf fs fp ((c :: cs).getD i spaceCh)).getD emptyImg).px dx y) ∧
    ∀ j k, j < k → k < (c :: cs).length →
      textOff fs fp (c :: cs) j + advance fs fp ((c :: cs).getD j spaceCh) ≤
        textOff fs fp (c :: cs) k := by
  constructor
  · obtain ⟨tr, hcomp, _, _⟩ := composeResult_ok fp fs c cs hload
    rw [hcomp]
    show (pasteFrom _ 0 (pasteList fs fp (c :: cs))).px _ _ = _
    have hget := getD_pasteList fs fp (c :: cs) i hi
    have hlen : i < (pasteList fs fp (c :: cs)).length := by
      simpa [pasteList] using hi
    have hmain := pasteFrom_px_at (pasteList fs fp (c :: cs))
      ⟨(((c :: cs)).map (advance fs fp)).sum,
        ((glyphOf fs fp c).getD emptyImg).height, fun _ _ => transPix⟩ 0 i dx y
      (pasteList_width_le fs fp (c :: cs)) hlen
      (by rw [hget]; exact hdx) (by rw [hget]; exact hy)
    rw [segOff_pasteList fs fp (c :: cs) i, hget] at hmain
    simpa using hmain
  · intro j k hjk hk
    have h1 : textOff fs fp (c :: cs) j + advance fs fp ((c :: cs).getD j spaceCh) =
        textOff fs fp (c :: cs) (j + 1) :=
      (textOff_succ fs fp (c :: cs) j (by omega)).symm
    rw [h1]
    exact textOff_mono fs fp (c :: cs) (j + 1) k (by omega)

/-- C9 witness: the second glyph of `AB` (opaque 2x2 glyphs) sits at offset
equal to the advance of the first. -/
theorem c9_placement_witness :
    pxOf (composeResult [chA, chB] demoFp fsC).1
        (textOff fsC demoFp [chA, chB] 1 + 0) 0 =
      blendPix transPix
        (((glyphOf fsC demoFp ([chA, chB].getD 1 spaceCh)).getD emptyImg).px 0 0) :=
  (c9_placement demoFp fsC chA [chB]
    (by intro d hd; simp at hd; rcases hd with h | h <;> subst h <;> decide)
    1 0 0 (by decide) (by decide) (by decide)).1

/-- C10: for every alphabetic character the locator probes the letters root;
it uses the `Upper-Case` subfolder exactly when `islower()` is false (which
includes caseless alphabetic characters), the `Lower-Case` subfolder when
`islower()` is true, with the file name being the character itself plus the
image extension. -/
theorem c10_case_folders (c : Ch) (fp : String × String × String) (fs : FS)
    (ha : c.isAlpha = true) :
    get_character_image_path c fp fs =
      (if fsIsFile fs (letterPath c fp) then Except.ok (some (letterPath c fp))
        else Except.error c,
       [Ev.isfile (letterPath c fp)]) ∧
    (c.isLower = false → letterPath c fp =
      fp.1 ++ "/" ++ "Upper-Case" ++ "/" ++ c.s ++ ".png") ∧
    (c.isLower = true → letterPath c fp =
      fp.1 ++ "/" ++ "Lower-Case" ++ "/" ++ c.s ++ ".png") := by
  refine ⟨?_, fun hl => ?_, fun hl => ?_⟩
  · unfold get_character_image_path checkFile
    simp [ha]
    split <;> rfl
  · simp [letterPath, hl]
  · simp [letterPath, hl]

/-- C10 witness: HIRAGANA LETTER A is alphabetic but not lowercase in the
`islower()` sense, and resolves into `Upper-Case`. -/
theorem c10_case_folders_witness :
    get_character_image_path hiraganaA demoFp [] =
      (Except.error hiraganaA, [Ev.isfile (letterPath hiraganaA demoFp)]) ∧
    letterPath hiraganaA demoFp =
      "Assets/FONTS/Font-1/Font-1-Blue/Letters" ++ "/" ++ "Upper-Case" ++ "/" ++
        "あ" ++ ".png" := by
  have h := c10_case_folders hiraganaA demoFp [] rfl
  refine ⟨?_, h.2.1 rfl⟩
  rw [h.1, if_neg (show ¬(fsIsFile [] (letterPath hiraganaA demoFp) = true) by decide)]

end MSF
